import Mathlib

/-!
Verification of the timing-probe subsystem (timing-probe.js).

The probe samples (system-time, media-time) pairs from a running video and
derives statistical and spectral diagnostics.  The sampling loop itself is
platform glue; the pure metric computation (lines 67-128 of the source) is
embedded below as `computeMetrics`, together with every math helper from the
source file.  JS numbers are modelled as exact values of a linear ordered
field (`ℚ` for decidable evaluation, `ℝ` for the report pipeline, which uses
`Real.sqrt` and trigonometric twiddle factors).
-/

namespace TimingProbe

variable {α : Type} [LinearOrderedField α]

/-- Source `diffs(arr)`: consecutive differences, `out[i-1] = arr[i] - arr[i-1]`. -/
def diffs (arr : List α) : List α :=
  List.zipWith (fun a b => a - b) (arr.drop 1) arr

/-- Source `mean(arr)`: arithmetic mean, 0 for the empty list. -/
def mean (arr : List α) : α :=
  if arr.length = 0 then 0 else arr.sum / (arr.length : α)

/-- Source `median(arr)`: sorts a copy, middle element (average of the two middle
elements on even length), 0 for the empty list. -/
def median (arr : List α) : α :=
  if arr.length = 0 then 0 else
  let tmp := arr.insertionSort (fun a b => a ≤ b)
  let m := arr.length / 2
  if arr.length % 2 = 1 then tmp.getD m 0 else (tmp.getD (m - 1) 0 + tmp.getD m 0) / 2

/-- Source `variance(arr)`: sample variance (divides by `n - 1`), 0 when `n < 2`. -/
def variance (arr : List α) : α :=
  if arr.length < 2 then 0 else
  (arr.map (fun x => (x - mean arr) * (x - mean arr))).sum / ((arr.length : α) - 1)

/-- Source `stddev(arr) = Math.sqrt(Math.max(0, variance(arr)))`. -/
noncomputable def stddev (arr : List ℝ) : ℝ :=
  Real.sqrt (max 0 (variance arr))

/-- Source `percentile(arr, p)`: sorts a copy and picks index
`clamp(floor(p * (n-1)), 0, n-1)`; 0 for the empty list. -/
def percentile [FloorRing α] (arr : List α) (p : α) : α :=
  if arr.length = 0 then 0 else
  let tmp := arr.insertionSort (fun a b => a ≤ b)
  let idx : ℤ := min ((arr.length : ℤ) - 1) (max 0 ⌊p * ((arr.length : α) - 1)⌋)
  tmp.getD idx.toNat 0

/-- Source `arraySub(a, b)`: elementwise `a[i] - b[i]` up to the shorter length. -/
def arraySub (a b : List α) : List α :=
  List.zipWith (fun x y => x - y) a b

/-- Result record of `summarize`. -/
structure SummaryStats where
  mean : ℝ
  median : ℝ
  std : ℝ
  p90 : ℝ

/-- Source `summarize(arr)`: mean/median/std/p90 bundle. -/
noncomputable def summarize (arr : List ℝ) : SummaryStats :=
  { mean := mean arr
    median := median arr
    std := stddev arr
    p90 := percentile arr 0.9 }

/-- Source `centerZ(arr)`: subtract the mean from every element. -/
def centerZ (arr : List α) : List α :=
  arr.map (fun x => x - mean arr)

/-- Source `autocorr(arr, maxLag)`: for each lag `0..maxLag`,
`(Σ_{i=lag}^{n-1} arr[i]*arr[i-lag]) / ((n - lag) * varX)` where
`varX = variance(arr) || 1e-12` (the JS `||` replaces a zero variance). -/
def autocorr (arr : List α) (maxLag : ℕ) : List α :=
  let n := arr.length
  let varX := if variance arr = 0 then 1e-12 else variance arr
  (List.range (maxLag + 1)).map (fun lag =>
    ((List.range' lag (n - lag)).foldl
        (fun s i => s + arr.getD i 0 * arr.getD (i - lag) 0) 0)
      / (((n : α) - (lag : α)) * varX))

/-- Source `safeDiv(a, b)`: `b ? a / b : 0`. -/
def safeDiv (a b : α) : α :=
  if b = 0 then 0 else a / b

/-- Source `argmax(arr)`: index of the first maximal element (0 for the empty list);
the JS loop runs `i = 1 .. arr.length - 1` updating on a strict increase. -/
def argmax (arr : List α) : ℕ :=
  (List.range' 1 (arr.length - 1)).foldl
    (fun maxIndex i => if arr.getD maxIndex 0 < arr.getD i 0 then i else maxIndex) 0

/-- Source `round(x, d)`: `Number(x.toFixed(d))`, i.e. rounding to `d` decimal
digits, ties towards the larger value.  The JS guard returning 0 for
non-finite `x` is identically satisfied in this exact-real model, where
every value is finite. -/
noncomputable def round (x : ℝ) (d : ℕ) : ℝ :=
  (⌊x * 10 ^ d + 1 / 2⌋ : ℤ) / 10 ^ d

/-- Source `bigGapMs`: the drop threshold `(1000 / Math.max(10, targetFps)) * 3`
from line 95 of the source. -/
def bigGapMs (targetFps : α) : α :=
  (1000 / max 10 targetFps) * 3

/-- Source `dropCount`: number of IFIs strictly above the threshold (line 96). -/
def dropCount (ifis : List α) (targetFps : α) : ℕ :=
  (ifis.filter (fun x => bigGapMs targetFps < x)).length

/-- Source `dropRate = safeDiv(dropCount, ifis.length)` (line 97). -/
def dropRateOf (ifis : List α) (targetFps : α) : α :=
  safeDiv ((dropCount ifis targetFps : ℕ) : α) ((ifis.length : ℕ) : α)

end TimingProbe

namespace TimingProbe

/-- FFT size: `1 << Math.ceil(Math.log2(Math.max(2, len)))`, the least power
of two that is at least `max 2 len`. -/
def fftSize (len : ℕ) : ℕ :=
  2 ^ Nat.clog 2 (max 2 len)

/-- The inner `while (m >= 1 && j >= m) { j -= m; m >>= 1 }` of the
bit-reversal loop. -/
def bitrevLoop (j m : ℕ) : ℕ × ℕ :=
  if h : 1 ≤ m ∧ m ≤ j then bitrevLoop (j - m) (m / 2) else (j, m)
termination_by m
decreasing_by
  exact Nat.div_lt_self h.1 (by omega)

/-- Swap entries `i` and `j` of an array (out-of-range indices leave the
array unchanged), modelling the three-assignment swap in the source. -/
def swapEntries (a : Array ℝ) (i j : ℕ) : Array ℝ :=
  let ti := a.getD i 0
  let tj := a.getD j 0
  (a.setD i tj).setD j ti

/-- Bit-reversal permutation pass of `fft` (first loop of the source). -/
def bitrevPass (re im : Array ℝ) : Array ℝ × Array ℝ :=
  let n := re.size
  let st := (List.range n).foldl
    (fun (st : Array ℝ × Array ℝ × ℕ) i =>
      let re := st.1
      let im := st.2.1
      let j := st.2.2
      let re := if i < j then swapEntries re i j else re
      let im := if i < j then swapEntries im i j else im
      let jm := bitrevLoop j (n / 2)
      (re, im, jm.1 + jm.2))
    (re, im, 0)
  (st.1, st.2.1)

/-- One butterfly stage of the iterative Cooley-Tukey FFT for block size
`len` (the body of the `for (len = 2; len <= n; len <<= 1)` loop). -/
noncomputable def butterflyStage (n : ℕ) (st : Array ℝ × Array ℝ) (len : ℕ) :
    Array ℝ × Array ℝ :=
  let ang := (-2 * Real.pi) / (len : ℝ)
  let wlenRe := Real.cos ang
  let wlenIm := Real.sin ang
  (List.range (n / len)).foldl
    (fun st t =>
      let i := len * t
      let inner := (List.range (len / 2)).foldl
        (fun (acc : Array ℝ × Array ℝ × ℝ × ℝ) j =>
          let re := acc.1
          let im := acc.2.1
          let wRe := acc.2.2.1
          let wIm := acc.2.2.2
          let uRe := re.getD (i + j) 0
          let uIm := im.getD (i + j) 0
          let vRe := re.getD (i + j + len / 2) 0 * wRe - im.getD (i + j + len / 2) 0 * wIm
          let vIm := re.getD (i + j + len / 2) 0 * wIm + im.getD (i + j + len / 2) 0 * wRe
          let re := (re.setD (i + j) (uRe + vRe)).setD (i + j + len / 2) (uRe - vRe)
          let im := (im.setD (i + j) (uIm + vIm)).setD (i + j + len / 2) (uIm - vIm)
          (re, im, wRe * wlenRe - wIm * wlenIm, wRe * wlenIm + wIm * wlenRe))
        (st.1, st.2, 1, 0)
      (inner.1, inner.2.1))
    st

/-- Source `fft(re, im)`: in-place iterative radix-2 FFT — bit-reversal permutation
followed by butterfly stages for `len = 2, 4, ..., n`. -/
noncomputable def fft (re im : Array ℝ) : Array ℝ × Array ℝ :=
  let n := re.size
  let st := bitrevPass re im
  ((List.range (Nat.log2 n)).map (fun s => 2 ^ (s + 1))).foldl (butterflyStage n) st

/-- Source `magnitudeFFT(arr)`: zero-pad to the next power of two `n >= max(2, N)`,
run the FFT with imaginary part 0, and return the one-sided magnitude
spectrum of length `n / 2` (index 0 is left at 0, indices `1 .. n/2 - 1`
hold `Math.hypot(re[k], im[k])`). -/
noncomputable def magnitudeFFT (arr : List ℝ) : List ℝ :=
  let n := fftSize arr.length
  let padded := arr ++ List.replicate (n - arr.length) 0
  let res := fft padded.toArray (Array.mkArray n 0)
  (List.range (n / 2)).map (fun k =>
    if k = 0 then 0 else Real.sqrt ((res.1.getD k 0) ^ 2 + (res.2.getD k 0) ^ 2))

/-- The peak-search loop of `dominantFrequency`: scan bins
`k = 1 .. mag.length - 1`, keeping the first bin whose magnitude strictly
exceeds the running best (initially bin 0 with value 0). -/
noncomputable def domScan (mag : List ℝ) : ℕ × ℝ :=
  (List.range' 1 (mag.length - 1)).foldl
    (fun acc k => if acc.2 < mag.getD k 0 then (k, mag.getD k 0) else acc) (0, 0)

/-- Source `dominantFrequency(mag, nominalFps)`: frequency of the best bin,
`bestK * sampleRate / N` with `N = mag.length * 2` and
`sampleRate = nominalFps || 30`, and the peak strength
`best / (sum(mag) + 1e-9)`. -/
noncomputable def dominantFrequency (mag : List ℝ) (nominalFps : ℝ) : ℝ × ℝ :=
  let N := mag.length * 2
  let sampleRate := if nominalFps = 0 then 30 else nominalFps
  let best := domScan mag
  (((best.1 : ℝ) * sampleRate) / (N : ℝ), best.2 / (mag.sum + 1e-9))

/-- The `ifi.acf` block of the report. -/
structure AcfReport where
  bestLag : ℕ
  bestCorr : ℝ

/-- The `ifi.spectrum` block of the report. -/
structure SpectrumReport where
  peakFreqHz : ℝ
  peakStrength : ℝ

/-- The `ifi` block of the report. -/
structure IfiReport where
  meanMs : ℝ
  medianMs : ℝ
  stdMs : ℝ
  cv : ℝ
  p90Ms : ℝ
  p99Ms : ℝ
  dropRate : ℝ
  acf : AcfReport
  spectrum : SpectrumReport

/-- The `drift` block of the report. -/
structure DriftReport where
  meanMsPerFrame : ℝ
  medianMsPerFrame : ℝ
  stdMsPerFrame : ℝ
  p90MsPerFrame : ℝ

/-- The `raw` block of the report. -/
structure RawReport where
  samples : List ℝ
  ifiCount : ℕ

/-- The metrics report returned by `runTimingProbe` (the `sampler` string,
pure environment detection, is omitted). -/
structure MetricsReport where
  nFrames : ℕ
  durationMs : ℝ
  fpsEst : ℝ
  ifi : IfiReport
  drift : DriftReport
  raw : RawReport

/-- The pure metric computation of `runTimingProbe` (lines 67-128): given
the configured collection window `durationMs` and `targetFps` from `opts`
and the sampled batch (`samples` in ms, `vtimes` in s), assemble the
report.  The configured `durationMs` is listed because `opts` carries it,
but the computation never reads it. -/
noncomputable def computeMetrics (durationMs targetFps : ℝ)
    (samples vtimes : List ℝ) : MetricsReport :=
  let ifis := diffs samples
  let medIfi := median ifis
  let meanIfi := mean ifis
  let stdIfi := stddev ifis
  let cvIfi := safeDiv stdIfi meanIfi
  let p90Ifi := percentile ifis 0.9
  let p99Ifi := percentile ifis 0.99
  let fpsEst := if 0 < meanIfi then 1000 / meanIfi else 0
  let vdt := (diffs vtimes).map (fun s => s * 1000)
  let sdt := ifis
  let driftPerFrame := arraySub sdt vdt
  let driftStats := summarize driftPerFrame
  let ifiCentered := centerZ ifis
  let acf := autocorr ifiCentered (min 60 (ifis.length / 2))
  let acfMaxLag := argmax (acf.drop 1) + 1
  let acfMax := acf.getD acfMaxLag 0
  let spectrum := magnitudeFFT ifiCentered
  let df := dominantFrequency spectrum (if fpsEst = 0 then 30 else fpsEst)
  { nFrames := samples.length
    durationMs :=
      if samples.length = 0 then 0
      else samples.getD (samples.length - 1) 0 - samples.getD 0 0
    fpsEst := fpsEst
    ifi :=
      { meanMs := round meanIfi 3
        medianMs := round medIfi 3
        stdMs := round stdIfi 3
        cv := round cvIfi 6
        p90Ms := round p90Ifi 3
        p99Ms := round p99Ifi 3
        dropRate := round (dropRateOf ifis targetFps) 6
        acf := { bestLag := acfMaxLag, bestCorr := round acfMax 6 }
        spectrum := { peakFreqHz := round df.1 4, peakStrength := round df.2 6 } }
    drift :=
      { meanMsPerFrame := round driftStats.mean 3
        medianMsPerFrame := round driftStats.median 3
        stdMsPerFrame := round driftStats.std 3
        p90MsPerFrame := round driftStats.p90 3 }
    raw := { samples := samples.take 5, ifiCount := ifis.length } }

/-- Predicate stating that `x` is representable with `d` decimal digits. -/
def hasDecimals (d : ℕ) (x : ℝ) : Prop :=
  ∃ m : ℤ, x * 10 ^ d = (m : ℝ)

end TimingProbe

/-! ### Evaluation lemmas for degenerate inputs -/

namespace TimingProbe

variable {α : Type} [LinearOrderedField α]

lemma diffs_nil : diffs ([] : List α) = [] := rfl

lemma diffs_singleton (a : α) : diffs [a] = [] := rfl

lemma mean_nil : mean ([] : List α) = 0 := rfl

lemma median_nil : median ([] : List α) = 0 := rfl

lemma variance_nil : variance ([] : List α) = 0 := rfl

lemma variance_singleton (a : α) : variance [a] = 0 := rfl

lemma stddev_nil : stddev [] = 0 := by
  simp [stddev, variance_nil]

lemma percentile_nil [FloorRing α] (p : α) : percentile [] p = 0 := rfl

lemma arraySub_nil (b : List α) : arraySub [] b = [] := rfl

lemma centerZ_nil : centerZ ([] : List α) = [] := rfl

lemma argmax_nil : argmax ([] : List α) = 0 := rfl

lemma safeDiv_zero (a : α) : safeDiv a 0 = 0 := by
  simp [safeDiv]

lemma autocorr_nil : autocorr ([] : List α) 0 = [0] := by
  simp [autocorr, List.range_succ]

lemma summarize_nil : summarize [] = ⟨0, 0, 0, 0⟩ := by
  simp [summarize, mean_nil, median_nil, stddev_nil, percentile_nil]

lemma round_zero (d : ℕ) : round 0 d = 0 := by
  have hf : ⌊(0 : ℝ) * 10 ^ d + 1 / 2⌋ = 0 := by
    have h : (0 : ℝ) * 10 ^ d + 1 / 2 = 1 / 2 := by ring
    rw [h, Int.floor_eq_zero_iff, Set.mem_Ico]
    norm_num
  unfold round
  rw [hf]
  simp

lemma fftSize_zero : fftSize 0 = 2 := by
  have h : Nat.clog 2 2 = 1 := Nat.clog_eq_one (by norm_num) (by norm_num)
  simp [fftSize, h]

lemma magnitudeFFT_nil : magnitudeFFT [] = [0] := by
  simp [magnitudeFFT, fftSize_zero, List.range_succ]

lemma domScan_dc : domScan [0] = (0, 0) := by
  simp [domScan]

lemma dominantFrequency_dc (fps : ℝ) : dominantFrequency [0] fps = (0, 0) := by
  simp [dominantFrequency, domScan_dc]

/-! ### Specification of the two peak-search loops -/

lemma argmax_foldl_spec (arr : List α) (ks : List ℕ) (a : ℕ) :
    (ks.foldl (fun m i => if arr.getD m 0 < arr.getD i 0 then i else m) a = a ∨
      ks.foldl (fun m i => if arr.getD m 0 < arr.getD i 0 then i else m) a ∈ ks) ∧
    arr.getD a 0 ≤
      arr.getD (ks.foldl (fun m i => if arr.getD m 0 < arr.getD i 0 then i else m) a) 0 ∧
    ∀ k ∈ ks, arr.getD k 0 ≤
      arr.getD (ks.foldl (fun m i => if arr.getD m 0 < arr.getD i 0 then i else m) a) 0 := by
  induction ks generalizing a with
  | nil => simp
  | cons k ks ih =>
    simp only [List.foldl_cons]
    obtain ⟨h1, h2, h3⟩ := ih (if arr.getD a 0 < arr.getD k 0 then k else a)
    by_cases hc : arr.getD a 0 < arr.getD k 0
    · rw [if_pos hc] at h1 h2 h3 ⊢
      refine ⟨?_, le_trans (le_of_lt hc) h2, ?_⟩
      · rcases h1 with h1 | h1
        · exact Or.inr (by rw [h1]; exact List.mem_cons_self k ks)
        · exact Or.inr (List.mem_cons_of_mem _ h1)
      · intro k' hk'
        rcases List.mem_cons.mp hk' with rfl | hk'
        · exact h2
        · exact h3 k' hk'
    · rw [if_neg hc] at h1 h2 h3 ⊢
      refine ⟨?_, h2, ?_⟩
      · rcases h1 with h1 | h1
        · exact Or.inl h1
        · exact Or.inr (List.mem_cons_of_mem _ h1)
      · intro k' hk'
        rcases List.mem_cons.mp hk' with rfl | hk'
        · exact le_trans (not_lt.mp hc) h2
        · exact h3 k' hk'

lemma argmax_spec (arr : List α) (h : arr ≠ []) :
    argmax arr < arr.length ∧
    ∀ i < arr.length, arr.getD i 0 ≤ arr.getD (argmax arr) 0 := by
  have hlen : 1 ≤ arr.length := List.length_pos.mpr h
  obtain ⟨h1, h2, h3⟩ := argmax_foldl_spec arr (List.range' 1 (arr.length - 1)) 0
  unfold argmax
  constructor
  · rcases h1 with h1 | h1
    · rw [h1]; omega
    · have := List.mem_range'_1.mp h1; omega
  · intro i hi
    rcases Nat.eq_zero_or_pos i with rfl | hi1
    · exact h2
    · exact h3 i (List.mem_range'_1.mpr (by omega))

lemma domScan_foldl_spec (mag : List ℝ) (ks : List ℕ) (acc : ℕ × ℝ) :
    (ks.foldl (fun a k => if a.2 < mag.getD k 0 then (k, mag.getD k 0) else a) acc = acc ∨
      ∃ k ∈ ks, ks.foldl (fun a k => if a.2 < mag.getD k 0 then (k, mag.getD k 0) else a) acc
        = (k, mag.getD k 0)) ∧
    acc.2 ≤ (ks.foldl (fun a k => if a.2 < mag.getD k 0 then (k, mag.getD k 0) else a) acc).2 ∧
    ∀ k ∈ ks, mag.getD k 0 ≤
      (ks.foldl (fun a k => if a.2 < mag.getD k 0 then (k, mag.getD k 0) else a) acc).2 := by
  induction ks generalizing acc with
  | nil => simp
  | cons k ks ih =>
    simp only [List.foldl_cons]
    obtain ⟨h1, h2, h3⟩ := ih (if acc.2 < mag.getD k 0 then (k, mag.getD k 0) else acc)
    by_cases hc : acc.2 < mag.getD k 0
    · rw [if_pos hc] at h1 h2 h3 ⊢
      refine ⟨?_, le_trans (le_of_lt hc) (by simpa using h2), ?_⟩
      · rcases h1 with h1 | ⟨k', hk', h1⟩
        · exact Or.inr ⟨k, List.mem_cons_self k ks, h1⟩
        · exact Or.inr ⟨k', List.mem_cons_of_mem _ hk', h1⟩
      · intro k' hk'
        rcases List.mem_cons.mp hk' with rfl | hk'
        · simpa using h2
        · exact h3 k' hk'
    · rw [if_neg hc] at h1 h2 h3 ⊢
      refine ⟨?_, h2, ?_⟩
      · rcases h1 with h1 | ⟨k', hk', h1⟩
        · exact Or.inl h1
        · exact Or.inr ⟨k', List.mem_cons_of_mem _ hk', h1⟩
      · intro k' hk'
        rcases List.mem_cons.mp hk' with rfl | hk'
        · exact le_trans (not_lt.mp hc) h2
        · exact h3 k' hk'

lemma domScan_spec (mag : List ℝ) :
    ((domScan mag).1 = 0 ∧ (domScan mag).2 = 0 ∨
      1 ≤ (domScan mag).1 ∧ (domScan mag).1 < mag.length ∧
        mag.getD (domScan mag).1 0 = (domScan mag).2) ∧
    ∀ k, 1 ≤ k → k < mag.length → mag.getD k 0 ≤ (domScan mag).2 := by
  obtain ⟨h1, _, h3⟩ := domScan_foldl_spec mag (List.range' 1 (mag.length - 1)) (0, 0)
  unfold domScan
  constructor
  · rcases h1 with h1 | ⟨k, hk, h1⟩
    · exact Or.inl (by rw [h1]; exact ⟨rfl, rfl⟩)
    · have hm := List.mem_range'_1.mp hk
      exact Or.inr (by rw [h1]; exact ⟨hm.1, by omega, rfl⟩)
  · intro k hk1 hk2
    exact h3 k (List.mem_range'_1.mpr (by omega))

/-! ### Sorted-list facts used by `percentile` -/

lemma getD_drop_one (l : List α) (i : ℕ) : (l.drop 1).getD i 0 = l.getD (i + 1) 0 := by
  cases l with
  | nil => simp
  | cons a t => simp [List.getD_cons_succ]

lemma sorted_getD_zero_le (t : List α) (ht : t.Sorted (fun a b => a ≤ b)) :
    ∀ x ∈ t, t.getD 0 0 ≤ x := by
  cases t with
  | nil => intro x hx; cases hx
  | cons a l =>
    intro x hx
    rcases List.mem_cons.mp hx with rfl | hx
    · simp
    · simpa using (List.sorted_cons.mp ht).1 x hx

lemma sorted_le_getD_last (t : List α) (ht : t.Sorted (fun a b => a ≤ b)) :
    ∀ x ∈ t, x ≤ t.getD (t.length - 1) 0 := by
  induction t with
  | nil => intro x hx; cases hx
  | cons a l ih =>
    intro x hx
    cases l with
    | nil =>
      rcases List.mem_cons.mp hx with rfl | hx
      · simp
      · cases hx
    | cons b m =>
      have htail : List.Sorted (fun a b => a ≤ b) (b :: m) := (List.sorted_cons.mp ht).2
      have hgd : (a :: b :: m).getD ((a :: b :: m).length - 1) 0
          = (b :: m).getD ((b :: m).length - 1) 0 := by
        simp [List.getD_cons_succ]
      rw [hgd]
      rcases List.mem_cons.mp hx with rfl | hx
      · have hmem : (b :: m).getD ((b :: m).length - 1) 0 ∈ (b :: m) := by
          rw [List.getD_eq_getElem _ _ (by simp)]
          exact List.getElem_mem _
        simpa using (List.sorted_cons.mp ht).1 _ hmem
      · exact ih htail x hx

lemma autocorr_length (arr : List α) (maxLag : ℕ) :
    (autocorr arr maxLag).length = maxLag + 1 := by
  simp [autocorr]

end TimingProbe

/-! ### Claim theorems -/

namespace TimingProbe

/-- Claim C5 (confirmed): for every non-empty sequence `S` and every `p`,
`percentile S p` is the entry at index `clamp(floor(p * (n-1)), 0, n-1)` of
an ascending-sorted copy of `S`; in particular `percentile S 0` is the
minimum of `S` and `percentile S 1` its maximum. -/
theorem percentile_spec {α : Type} [LinearOrderedField α] [FloorRing α]
    (S : List α) (p : α) (h : S ≠ []) :
    (∃ t : List α, t.Perm S ∧ t.Sorted (fun a b => a ≤ b) ∧
      percentile S p =
        t.getD (min ((S.length : ℤ) - 1) (max 0 ⌊p * ((S.length : α) - 1)⌋)).toNat 0) ∧
    percentile S 0 ∈ S ∧ (∀ x ∈ S, percentile S 0 ≤ x) ∧
    percentile S 1 ∈ S ∧ (∀ x ∈ S, x ≤ percentile S 1) := by
  have hlen : 0 < S.length := List.length_pos.mpr h
  have hne : S.length ≠ 0 := by omega
  have hperm : (S.insertionSort (fun a b => a ≤ b)).Perm S := List.perm_insertionSort _ S
  have hsort : (S.insertionSort (fun a b => a ≤ b)).Sorted (fun a b => a ≤ b) :=
    List.sorted_insertionSort _ S
  have hlt : (S.insertionSort (fun a b => a ≤ b)).length = S.length := hperm.length_eq
  have hpe : ∀ q : α, percentile S q
      = (S.insertionSort (fun a b => a ≤ b)).getD
          (min ((S.length : ℤ) - 1) (max 0 ⌊q * ((S.length : α) - 1)⌋)).toNat 0 := by
    intro q
    unfold percentile
    rw [if_neg hne]
  have hidx0 : (min ((S.length : ℤ) - 1) (max 0 ⌊(0 : α) * ((S.length : α) - 1)⌋)).toNat
      = 0 := by
    have h0 : ⌊(0 : α) * ((S.length : α) - 1)⌋ = 0 := by simp
    rw [h0]
    omega
  have hidx1 : (min ((S.length : ℤ) - 1) (max 0 ⌊(1 : α) * ((S.length : α) - 1)⌋)).toNat
      = S.length - 1 := by
    have h1 : (1 : α) * ((S.length : α) - 1) = (((S.length : ℤ) - 1 : ℤ) : α) := by
      push_cast
      ring
    rw [h1, Int.floor_intCast]
    omega
  refine ⟨⟨S.insertionSort (fun a b => a ≤ b), hperm, hsort, hpe p⟩, ?_, ?_, ?_, ?_⟩
  · rw [hpe 0, hidx0]
    have hm : (S.insertionSort (fun a b => a ≤ b)).getD 0 0
        ∈ S.insertionSort (fun a b => a ≤ b) := by
      rw [List.getD_eq_getElem _ _ (by omega)]
      exact List.getElem_mem _
    exact hperm.mem_iff.mp hm
  · intro x hx
    rw [hpe 0, hidx0]
    exact sorted_getD_zero_le _ hsort x (hperm.mem_iff.mpr hx)
  · rw [hpe 1, hidx1]
    have hm : (S.insertionSort (fun a b => a ≤ b)).getD (S.length - 1) 0
        ∈ S.insertionSort (fun a b => a ≤ b) := by
      rw [List.getD_eq_getElem _ _ (by omega)]
      exact List.getElem_mem _
    exact hperm.mem_iff.mp hm
  · intro x hx
    rw [hpe 1, hidx1, ← hlt]
    exact sorted_le_getD_last _ hsort x (hperm.mem_iff.mpr hx)

/-- Witness for C5 at the concrete input `S = [3, 1, 2]`, `p = 0`. -/
theorem percentile_spec_witness :
    percentile ([3, 1, 2] : List ℚ) 0 ∈ ([3, 1, 2] : List ℚ) ∧
    ∀ x ∈ ([3, 1, 2] : List ℚ), percentile ([3, 1, 2] : List ℚ) 0 ≤ x :=
  ⟨(percentile_spec ([3, 1, 2] : List ℚ) 0 (by simp)).2.1,
   (percentile_spec ([3, 1, 2] : List ℚ) 0 (by simp)).2.2.1⟩

/-- Claim C9 (confirmed): `variance` is nonnegative, `stddev` is its square
root, `variance` is 0 on sequences shorter than 2, and otherwise it is the
sum of squared deviations from the mean divided by `n - 1`. -/
theorem variance_nonneg_stddev_sqrt (S : List ℝ) :
    0 ≤ variance S ∧
    stddev S = Real.sqrt (variance S) ∧
    (S.length < 2 → variance S = 0) ∧
    (2 ≤ S.length →
      variance S
        = (S.map (fun x => (x - mean S) * (x - mean S))).sum / ((S.length : ℝ) - 1)) := by
  have hnn : 0 ≤ variance S := by
    by_cases hc : S.length < 2
    · simp [variance, hc]
    · unfold variance
      rw [if_neg hc]
      apply div_nonneg
      · apply List.sum_nonneg
        intro x hx
        obtain ⟨y, hy, rfl⟩ := List.mem_map.mp hx
        exact mul_self_nonneg _
      · have h2 : (2 : ℝ) ≤ (S.length : ℝ) := by exact_mod_cast (by omega : 2 ≤ S.length)
        linarith
  refine ⟨hnn, ?_, ?_, ?_⟩
  · unfold stddev
    rw [max_eq_right hnn]
  · intro hlt
    unfold variance
    rw [if_pos hlt]
  · intro hge
    unfold variance
    rw [if_neg (by omega)]

/-- Witness for C9 at concrete inputs `[5]` and `[1, 2, 3]`. -/
theorem variance_nonneg_stddev_sqrt_witness :
    variance [(5 : ℝ)] = 0 ∧ 0 ≤ variance [(1 : ℝ), 2, 3] :=
  ⟨(variance_nonneg_stddev_sqrt [(5 : ℝ)]).2.2.1 (by simp),
   (variance_nonneg_stddev_sqrt [(1 : ℝ), 2, 3]).1⟩

/-- Claim C6 (confirmed): for a batch of `N` sample pairs, the IFI series, the
scaled media-delta series and the drift series all have length `N - 1`
(which is 0 for `N` equal to 0 or 1), as does the reported `raw.ifiCount`. -/
theorem derived_series_length (d fps : ℝ) (samples vtimes : List ℝ)
    (h : vtimes.length = samples.length) :
    (diffs samples).length = samples.length - 1 ∧
    ((diffs vtimes).map (fun s => s * 1000)).length = samples.length - 1 ∧
    (arraySub (diffs samples) ((diffs vtimes).map (fun s => s * 1000))).length
      = samples.length - 1 ∧
    (computeMetrics d fps samples vtimes).raw.ifiCount = samples.length - 1 := by
  have h1 : (diffs samples).length = samples.length - 1 := by
    simp [diffs]
  have h2 : ((diffs vtimes).map (fun s => s * 1000)).length = samples.length - 1 := by
    simp [diffs, h]
  have h3 : (arraySub (diffs samples) ((diffs vtimes).map (fun s => s * 1000))).length
      = samples.length - 1 := by
    simp [arraySub, diffs, h]
  have h4 : (computeMetrics d fps samples vtimes).raw.ifiCount
      = (diffs samples).length := rfl
  exact ⟨h1, h2, h3, by rw [h4, h1]⟩

/-- Witness for C6 at the concrete batch `samples = [0,1,2]`,
`vtimes = [5,6,7]`. -/
theorem derived_series_length_witness :
    (diffs [(0 : ℝ), 1, 2]).length = 2 ∧
    (arraySub (diffs [(0 : ℝ), 1, 2]) ((diffs [(5 : ℝ), 6, 7]).map (fun s => s * 1000))).length
      = 2 := by
  obtain ⟨a, b, c, e⟩ :=
    derived_series_length 5000 30 [(0 : ℝ), 1, 2] [(5 : ℝ), 6, 7] (by simp)
  exact ⟨a, c⟩

/-- Claim C10 (confirmed): the report's `durationMs` field is the span between
the last and first captured system timestamps (0 for an empty batch) and is
independent of the configured `durationMs` collection window. -/
theorem durationMs_actual_span (d d' fps : ℝ) (samples vtimes : List ℝ) :
    (samples = [] → (computeMetrics d fps samples vtimes).durationMs = 0) ∧
    (∀ h : samples ≠ [],
      (computeMetrics d fps samples vtimes).durationMs
        = samples.getLast h - samples.head h) ∧
    (computeMetrics d fps samples vtimes).durationMs
      = (computeMetrics d' fps samples vtimes).durationMs := by
  have hd : ∀ dd : ℝ, (computeMetrics dd fps samples vtimes).durationMs
      = if samples.length = 0 then 0
        else samples.getD (samples.length - 1) 0 - samples.getD 0 0 := fun dd => rfl
  refine ⟨?_, ?_, by rw [hd d, hd d']⟩
  · intro he
    rw [hd d]
    simp [he]
  · intro hne
    have hp : 0 < samples.length := List.length_pos.mpr hne
    rw [hd d, if_neg (by omega)]
    rw [List.getD_eq_getElem _ _ (by omega), List.getD_eq_getElem _ _ hp,
      List.getLast_eq_getElem, List.head_eq_getElem]

/-- Witness for C10 at the concrete batch `[2, 5]`: span `5 - 2 = 3`. -/
theorem durationMs_actual_span_witness :
    (computeMetrics 5000 30 [(2 : ℝ), 5] [0, 0]).durationMs = 3 := by
  have h := (durationMs_actual_span 5000 6000 30 [(2 : ℝ), 5] [0, 0]).2.1 (by simp)
  rw [h]
  norm_num [List.getLast]

/-- Claim C1 (code bug): the source comment on `autocorr` and the spec both
state that the lag-0 entry is 1 for any series with non-zero variance, but
because the denominator uses the *sample* variance (division by `n - 1`)
scaled by `n`, the series `[1, -1]` (variance 2) yields `acf[0] = 1/2`. -/
theorem autocorr_lag0_not_one :
    variance ([1, -1] : List ℚ) ≠ 0 ∧ autocorr ([1, -1] : List ℚ) 0 = [1 / 2] := by
  constructor
  · norm_num [variance, mean]
  · norm_num [autocorr, variance, mean, List.range_succ, List.range', List.getD]

lemma dropRate_example_eval :
    dropRateOf (List.replicate 29 (33 : ℚ) ++ [200]) 30 = 1 / 30 := by
  norm_num [dropRateOf, dropCount, bigGapMs, safeDiv, List.filter, List.replicate]

/-- Claim C3 (corrected): the drop count is the number of IFIs strictly above
`3 * (1000 / max(10, targetFps))` and `dropRate` is that count divided by
the series length (0 for an empty series); the series of 29 gaps of 33 ms
plus one 200 ms gap has 30 entries, so its drop rate is `1/30`, not the
claimed `1/29`. -/
theorem dropRate_spec :
    (∀ (ifis : List ℚ) (fps : ℚ),
      dropCount ifis fps = (ifis.filter (fun x => 3 * (1000 / max 10 fps) < x)).length ∧
      (ifis.length ≠ 0 →
        dropRateOf ifis fps = ((dropCount ifis fps : ℕ) : ℚ) / ((ifis.length : ℕ) : ℚ)) ∧
      (ifis = [] → dropRateOf ifis fps = 0)) ∧
    dropRateOf (List.replicate 29 (33 : ℚ) ++ [200]) 30 = 1 / 30 := by
  refine ⟨fun ifis fps => ⟨?_, ?_, ?_⟩, dropRate_example_eval⟩
  · have hc : bigGapMs fps = 3 * (1000 / max 10 fps) := by
      rw [bigGapMs]
      ring
    simp only [dropCount, hc]
  · intro hne
    rw [dropRateOf, safeDiv, if_neg (by exact_mod_cast hne)]
  · intro he
    subst he
    simp [dropRateOf, dropCount, safeDiv]

/-- Witness for C3 at the concrete one-element series `[200]`. -/
theorem dropRate_spec_witness :
    dropRateOf ([200] : List ℚ) 30
      = ((dropCount ([200] : List ℚ) 30 : ℕ) : ℚ) / ((List.length ([200] : List ℚ) : ℕ) : ℚ) :=
  (dropRate_spec.1 [200] 30).2.1 (by simp)

/-- Counterexample for C3 as stated: the 30-entry series yields `1/30`,
which is not `1/29`. -/
theorem dropRate_gap_example_ne :
    dropRateOf (List.replicate 29 (33 : ℚ) ++ [200]) 30 ≠ 1 / 29 := by
  rw [dropRate_example_eval]
  norm_num

/-- Claim C8 (corrected): for an IFI series of length `N >= 2` — so that
`L = min 60 (N / 2) >= 1` — the reported best lag `argmax(acf[1..]) + 1`
lies in `1..L` and its autocorrelation value is greatest among lags
`1..L`.  (For `N <= 1` the code reports best lag 1, outside the then-empty
range `1..0`; see the counterexample.) -/
theorem bestLag_argmax_spec (ifis : List ℚ) (h : 2 ≤ ifis.length) :
    1 ≤ argmax ((autocorr (centerZ ifis) (min 60 (ifis.length / 2))).drop 1) + 1 ∧
    argmax ((autocorr (centerZ ifis) (min 60 (ifis.length / 2))).drop 1) + 1
      ≤ min 60 (ifis.length / 2) ∧
    ∀ lag, 1 ≤ lag → lag ≤ min 60 (ifis.length / 2) →
      (autocorr (centerZ ifis) (min 60 (ifis.length / 2))).getD lag 0
        ≤ (autocorr (centerZ ifis) (min 60 (ifis.length / 2))).getD
            (argmax ((autocorr (centerZ ifis) (min 60 (ifis.length / 2))).drop 1) + 1) 0 := by
  have hL1 : 1 ≤ min 60 (ifis.length / 2) := by omega
  have hlen : (autocorr (centerZ ifis) (min 60 (ifis.length / 2))).length
      = min 60 (ifis.length / 2) + 1 := autocorr_length _ _
  have hdlen : ((autocorr (centerZ ifis) (min 60 (ifis.length / 2))).drop 1).length
      = min 60 (ifis.length / 2) := by
    simp [hlen]
  have hne : (autocorr (centerZ ifis) (min 60 (ifis.length / 2))).drop 1 ≠ [] := by
    intro hc
    rw [hc] at hdlen
    simp at hdlen
    omega
  obtain ⟨hlt, hmax⟩ := argmax_spec _ hne
  rw [hdlen] at hlt hmax
  refine ⟨by omega, by omega, ?_⟩
  intro lag h1 h2
  have e1 : (autocorr (centerZ ifis) (min 60 (ifis.length / 2))).getD lag 0
      = ((autocorr (centerZ ifis) (min 60 (ifis.length / 2))).drop 1).getD (lag - 1) 0 := by
    rw [getD_drop_one]
    congr 1
    omega
  have e2 : (autocorr (centerZ ifis) (min 60 (ifis.length / 2))).getD
        (argmax ((autocorr (centerZ ifis) (min 60 (ifis.length / 2))).drop 1) + 1) 0
      = ((autocorr (centerZ ifis) (min 60 (ifis.length / 2))).drop 1).getD
          (argmax ((autocorr (centerZ ifis) (min 60 (ifis.length / 2))).drop 1)) 0 :=
    (getD_drop_one _ _).symm
  rw [e1, e2]
  exact hmax (lag - 1) (by omega)

/-- Witness for C8 at the concrete series `[1, 2, 3, 4]` (`L = 2`). -/
theorem bestLag_argmax_spec_witness :
    1 ≤ argmax ((autocorr (centerZ ([1, 2, 3, 4] : List ℚ))
        (min 60 (List.length ([1, 2, 3, 4] : List ℚ) / 2))).drop 1) + 1 ∧
    argmax ((autocorr (centerZ ([1, 2, 3, 4] : List ℚ))
        (min 60 (List.length ([1, 2, 3, 4] : List ℚ) / 2))).drop 1) + 1
      ≤ min 60 (List.length ([1, 2, 3, 4] : List ℚ) / 2) :=
  ⟨(bestLag_argmax_spec [1, 2, 3, 4] (by simp)).1,
   (bestLag_argmax_spec [1, 2, 3, 4] (by simp)).2.1⟩

/-- Counterexample for C8 as stated: for the empty IFI series `L = 0`, yet
the reported best lag is `argmax([]) + 1 = 1`, outside `1..L`. -/
theorem bestLag_out_of_range_empty :
    ¬ (argmax ((autocorr (centerZ ([] : List ℚ))
          (min 60 (List.length ([] : List ℚ) / 2))).drop 1) + 1
        ≤ min 60 (List.length ([] : List ℚ) / 2)) := by
  simp [centerZ_nil, autocorr_nil, argmax_nil]

lemma dropRateOf_nil (fps : ℝ) : dropRateOf ([] : List ℝ) fps = 0 := by
  simp [dropRateOf, dropCount, safeDiv]

/-- A batch whose IFI series is empty produces the fully degenerate report:
all statistics 0 except the best lag, which is `argmax([]) + 1 = 1`. -/
lemma computeMetrics_no_ifis (d fps : ℝ) (samples vtimes : List ℝ)
    (h : diffs samples = []) :
    computeMetrics d fps samples vtimes =
      { nFrames := samples.length
        durationMs := if samples.length = 0 then 0
          else samples.getD (samples.length - 1) 0 - samples.getD 0 0
        fpsEst := 0
        ifi :=
          { meanMs := 0, medianMs := 0, stdMs := 0, cv := 0, p90Ms := 0, p99Ms := 0,
            dropRate := 0, acf := { bestLag := 1, bestCorr := 0 },
            spectrum := { peakFreqHz := 0, peakStrength := 0 } }
        drift :=
          { meanMsPerFrame := 0, medianMsPerFrame := 0, stdMsPerFrame := 0,
            p90MsPerFrame := 0 }
        raw := { samples := samples.take 5, ifiCount := 0 } } := by
  simp only [computeMetrics, h, mean_nil, median_nil, stddev_nil, percentile_nil,
    safeDiv_zero, arraySub_nil, summarize_nil, centerZ_nil, List.length_nil,
    Nat.zero_div, Nat.min_zero, autocorr_nil, List.drop_succ_cons, List.drop_nil,
    argmax_nil, List.getD_cons_succ, List.getD_nil, magnitudeFFT_nil,
    dominantFrequency_dc, dropRateOf_nil, round_zero, lt_self_iff_false, if_false]

/-- Claim C2 (corrected): a batch of length 0 or 1 yields a report (the
computation is total, so nothing is thrown) with `nFrames` equal to the
batch length and every listed IFI and drift statistic equal to 0 — except
`acf.bestLag`, which is `argmax` of an empty lag list plus 1, i.e. 1. -/
theorem shortBatch_report (d fps : ℝ) (samples vtimes : List ℝ)
    (h : samples.length ≤ 1) :
    (computeMetrics d fps samples vtimes).nFrames = samples.length ∧
    (computeMetrics d fps samples vtimes).fpsEst = 0 ∧
    (computeMetrics d fps samples vtimes).ifi.meanMs = 0 ∧
    (computeMetrics d fps samples vtimes).ifi.medianMs = 0 ∧
    (computeMetrics d fps samples vtimes).ifi.stdMs = 0 ∧
    (computeMetrics d fps samples vtimes).ifi.cv = 0 ∧
    (computeMetrics d fps samples vtimes).ifi.p90Ms = 0 ∧
    (computeMetrics d fps samples vtimes).ifi.p99Ms = 0 ∧
    (computeMetrics d fps samples vtimes).ifi.dropRate = 0 ∧
    (computeMetrics d fps samples vtimes).ifi.acf.bestLag = 1 ∧
    (computeMetrics d fps samples vtimes).ifi.acf.bestCorr = 0 ∧
    (computeMetrics d fps samples vtimes).ifi.spectrum.peakFreqHz = 0 ∧
    (computeMetrics d fps samples vtimes).ifi.spectrum.peakStrength = 0 ∧
    (computeMetrics d fps samples vtimes).drift.meanMsPerFrame = 0 ∧
    (computeMetrics d fps samples vtimes).drift.medianMsPerFrame = 0 ∧
    (computeMetrics d fps samples vtimes).drift.stdMsPerFrame = 0 ∧
    (computeMetrics d fps samples vtimes).drift.p90MsPerFrame = 0 := by
  have hifi : diffs samples = [] := by
    rcases samples with _ | ⟨a, _ | ⟨b, t⟩⟩
    · rfl
    · rfl
    · simp at h
  rw [computeMetrics_no_ifis d fps samples vtimes hifi]
  exact ⟨rfl, rfl, rfl, rfl, rfl, rfl, rfl, rfl, rfl, rfl, rfl, rfl, rfl, rfl,
    rfl, rfl, rfl⟩

/-- Witness for C2 at the concrete empty batch. -/
theorem shortBatch_report_witness :
    ([] : List ℝ).length ≤ 1 ∧
    (computeMetrics 5000 30 ([] : List ℝ) ([] : List ℝ)).nFrames = 0 ∧
    (computeMetrics 5000 30 ([] : List ℝ) ([] : List ℝ)).ifi.meanMs = 0 ∧
    (computeMetrics 5000 30 ([] : List ℝ) ([] : List ℝ)).ifi.acf.bestLag = 1 := by
  obtain ⟨h1, h2, h3, h4, h5, h6, h7, h8, h9, h10, h11, h12, h13, h14, h15, h16, h17⟩ :=
    shortBatch_report 5000 30 ([] : List ℝ) ([] : List ℝ) (by simp)
  exact ⟨by simp, h1, h3, h10⟩

/-- Counterexample for C2 as stated: the empty batch reports
`acf.bestLag = 1`, not the claimed fallback 0. -/
theorem shortBatch_bestLag_ne_zero :
    (computeMetrics 5000 30 ([] : List ℝ) ([] : List ℝ)).ifi.acf.bestLag ≠ 0 := by
  rw [computeMetrics_no_ifis 5000 30 [] [] rfl]
  simp

lemma hasDecimals_round (x : ℝ) (k : ℕ) : hasDecimals k (round x k) := by
  refine ⟨⌊x * 10 ^ k + 1 / 2⌋, ?_⟩
  unfold round
  rw [div_mul_cancel₀]
  positivity

/-- Claim C7 (corrected): every numeric field of the report's `ifi` and
`drift` blocks carries its documented decimal precision — 3 decimals by
default, 4 for `spectrum.peakFreqHz`, 6 for `cv`, `dropRate`,
`acf.bestCorr` and `spectrum.peakStrength`.  (The top-level `fpsEst` and
`durationMs` are reported unrounded; see the counterexample.) -/
theorem report_fields_rounded (d fps : ℝ) (samples vtimes : List ℝ) :
    hasDecimals 3 (computeMetrics d fps samples vtimes).ifi.meanMs ∧
    hasDecimals 3 (computeMetrics d fps samples vtimes).ifi.medianMs ∧
    hasDecimals 3 (computeMetrics d fps samples vtimes).ifi.stdMs ∧
    hasDecimals 6 (computeMetrics d fps samples vtimes).ifi.cv ∧
    hasDecimals 3 (computeMetrics d fps samples vtimes).ifi.p90Ms ∧
    hasDecimals 3 (computeMetrics d fps samples vtimes).ifi.p99Ms ∧
    hasDecimals 6 (computeMetrics d fps samples vtimes).ifi.dropRate ∧
    hasDecimals 6 (computeMetrics d fps samples vtimes).ifi.acf.bestCorr ∧
    hasDecimals 4 (computeMetrics d fps samples vtimes).ifi.spectrum.peakFreqHz ∧
    hasDecimals 6 (computeMetrics d fps samples vtimes).ifi.spectrum.peakStrength ∧
    hasDecimals 3 (computeMetrics d fps samples vtimes).drift.meanMsPerFrame ∧
    hasDecimals 3 (computeMetrics d fps samples vtimes).drift.medianMsPerFrame ∧
    hasDecimals 3 (computeMetrics d fps samples vtimes).drift.stdMsPerFrame ∧
    hasDecimals 3 (computeMetrics d fps samples vtimes).drift.p90MsPerFrame :=
  ⟨hasDecimals_round _ _, hasDecimals_round _ _, hasDecimals_round _ _,
   hasDecimals_round _ _, hasDecimals_round _ _, hasDecimals_round _ _,
   hasDecimals_round _ _, hasDecimals_round _ _, hasDecimals_round _ _,
   hasDecimals_round _ _, hasDecimals_round _ _, hasDecimals_round _ _,
   hasDecimals_round _ _, hasDecimals_round _ _⟩

/-- Counterexample for C7 as stated: for the batch `[0, 3]` the report's
`fpsEst` is `1000/3`, which is not a 3-decimal value — `fpsEst` is not
rounded at all. -/
theorem fpsEst_not_rounded :
    (computeMetrics 5000 30 [(0 : ℝ), 3] [0, 0]).fpsEst = 1000 / 3 ∧
    ¬ hasDecimals 3 (computeMetrics 5000 30 [(0 : ℝ), 3] [0, 0]).fpsEst := by
  have hdiffs : diffs [(0 : ℝ), 3] = [3] := by
    norm_num [diffs]
  have hmean : mean ([3] : List ℝ) = 3 := by
    norm_num [mean]
  have hf : (computeMetrics 5000 30 [(0 : ℝ), 3] [0, 0]).fpsEst
      = if 0 < mean (diffs [(0 : ℝ), 3]) then 1000 / mean (diffs [(0 : ℝ), 3]) else 0 :=
    rfl
  have hval : (computeMetrics 5000 30 [(0 : ℝ), 3] [0, 0]).fpsEst = 1000 / 3 := by
    rw [hf, hdiffs, hmean, if_pos (by norm_num)]
  refine ⟨hval, ?_⟩
  rw [hval]
  rintro ⟨m, hm⟩
  have h3 : (m : ℝ) * 3 = 1000000 := by
    field_simp at hm
    linarith
  have h4 : (m : ℤ) * 3 = 1000000 := by exact_mod_cast h3
  omega

lemma one_le_clog_two (m : ℕ) (h : 2 ≤ m) : 1 ≤ Nat.clog 2 m := by
  by_contra hc
  push_neg at hc
  have h1 : Nat.clog 2 m ≤ 0 := by omega
  have h2 : m ≤ 2 ^ 0 := (Nat.le_pow_iff_clog_le (by norm_num)).mpr h1
  simp at h2
  omega

/-- The value `fftSize N` is the least power of two at least `max 2 N`: it is a power
of two bounded below by `max 2 N` and strictly below `2 * max 2 N`. -/
lemma fftSize_facts (N : ℕ) :
    max 2 N ≤ fftSize N ∧ fftSize N < 2 * max 2 N ∧ ∃ k, 1 ≤ k ∧ fftSize N = 2 ^ k := by
  have hm : 2 ≤ max 2 N := le_max_left 2 N
  have hk := one_le_clog_two (max 2 N) hm
  refine ⟨Nat.le_pow_clog (by norm_num) _, ?_, ⟨Nat.clog 2 (max 2 N), hk, rfl⟩⟩
  have h1 : 2 ^ (Nat.clog 2 (max 2 N) - 1) < max 2 N :=
    Nat.pow_pred_clog_lt_self (by norm_num) (by omega)
  have h5 : 2 ^ Nat.clog 2 (max 2 N) = 2 * 2 ^ (Nat.clog 2 (max 2 N) - 1) := by
    rw [← pow_succ']
    congr 1
    omega
  unfold fftSize
  omega

/-- Claim C4 (confirmed): `magnitudeFFT` pads its input with zeros to the
next power of two `n >= max 2 N` before the FFT and returns `n / 2`
magnitude bins, and `dominantFrequency` searches only bins
`1 .. mag.length - 1` (the DC bin 0 is excluded), reporting
`peakFreqHz = bestBin * sampleRate / n` with `sampleRate = nominalFps || 30`
and `peakStrength = best / (sum(mag) + 1e-9)`. -/
theorem fft_pad_and_domfreq_spec (arr : List ℝ) (mag : List ℝ) (fps : ℝ) :
    ((∃ k, 1 ≤ k ∧ fftSize arr.length = 2 ^ k) ∧
      max 2 arr.length ≤ fftSize arr.length ∧
      fftSize arr.length < 2 * max 2 arr.length) ∧
    (arr ++ List.replicate (fftSize arr.length - arr.length) 0).length
      = fftSize arr.length ∧
    2 * (magnitudeFFT arr).length = fftSize arr.length ∧
    (dominantFrequency mag fps).1
      = ((domScan mag).1 : ℝ) * (if fps = 0 then 30 else fps) / ((mag.length * 2 : ℕ) : ℝ) ∧
    (dominantFrequency mag fps).2 = (domScan mag).2 / (mag.sum + 1e-9) ∧
    (∀ k, 1 ≤ k → k < mag.length → mag.getD k 0 ≤ (domScan mag).2) ∧
    ((domScan mag).1 = 0 ∧ (domScan mag).2 = 0 ∨
      1 ≤ (domScan mag).1 ∧ (domScan mag).1 < mag.length ∧
        mag.getD (domScan mag).1 0 = (domScan mag).2) := by
  obtain ⟨hle, hlt, k, hk1, hke⟩ := fftSize_facts arr.length
  have hN : arr.length ≤ fftSize arr.length := le_trans (le_max_right 2 arr.length) hle
  obtain ⟨hchar, hmax⟩ := domScan_spec mag
  refine ⟨⟨⟨k, hk1, hke⟩, hle, hlt⟩, ?_, ?_, rfl, rfl, hmax, hchar⟩
  · simp only [List.length_append, List.length_replicate]
    omega
  · have hml : (magnitudeFFT arr).length = fftSize arr.length / 2 := by
      simp [magnitudeFFT]
    rw [hml, hke]
    have h5 : 2 ^ k = 2 * 2 ^ (k - 1) := by
      rw [← pow_succ']
      congr 1
      omega
    omega

/-- Witness for C4 at the concrete spectrum `[0, 2]`, discharging the
bin-range hypotheses at `k = 1`. -/
theorem fft_pad_and_domfreq_spec_witness :
    List.getD [(0 : ℝ), 2] 1 0 ≤ (domScan [(0 : ℝ), 2]).2 :=
  (fft_pad_and_domfreq_spec [] [(0 : ℝ), 2] 30).2.2.2.2.2.1 1 (by norm_num) (by simp)

end TimingProbe
